import Mathlib

/-!
Verification of the IS-IS Segment Routing database and label-reconciliation
engine (Orange-OpenSource/frr, isisd/isis_sr.h).

The repository snapshot provides the header isis_sr.h only: the enums,
structures, macros and constants below are translated from it directly.
The function bodies declared by the header (isis_sr.c) are not part of the
snapshot, so the behavior of the declared operations is modelled from the
design specification, as noted on each such definition.
-/

namespace IsisSr

/-! ## Constants from isis_sr.h -/

/-- Default route priority for ISIS Segment Routing (isis_sr.h line 53). -/
def ISIS_SR_PRIORITY_DEFAULT : Nat := 10

/-- Lower bound of the label range for Adj-SID attribution (isis_sr.h line 56). -/
def ADJ_SID_MIN : Nat := 5000

/-- Upper bound of the label range for Adj-SID attribution (isis_sr.h line 57). -/
def ADJ_SID_MAX : Nat := 5999

/-- Default metric (isis_sr.h line 59). -/
def ISIS_SR_DEFAULT_METRIC : Nat := 1

/-- MPLS IPv4 explicit-null label value (RFC 3032). -/
def MPLS_LABEL_IPV4_EXPLICIT_NULL : Nat := 0

/-- MPLS implicit-null label value (RFC 3032), used for PHP. -/
def MPLS_LABEL_IMPLICIT_NULL : Nat := 3

/-! ## Enumerations from isis_sr.h -/

/-- `enum sid_status` (isis_sr.h line 81): lifecycle status of an SR prefix SID. -/
inductive sid_status where
  | IDLE_SID
  | NEW_SID
  | MODIFIED_SID
  | UNCHANGED_SID
deriving DecidableEq, Repr

/-- `enum nh_state` (isis_sr.h line 82): state of an NHLFE. -/
inductive nh_state where
  | IDLE_NH
  | NEW_NH
  | ACTIVE_NH
  | UNACTIVE_NH
  | UNCHANGED_NH
deriving DecidableEq, Repr

/-- `enum sr_sid_value_type` (isis_sr.h lines 85-88). -/
inductive sr_sid_value_type where
  | SR_SID_VALUE_TYPE_INDEX
  | SR_SID_VALUE_TYPE_ABSOLUTE
deriving DecidableEq, Repr

/-- `enum sr_last_hop_behavior` (isis_sr.h lines 92-96). -/
inductive sr_last_hop_behavior where
  | SR_LAST_HOP_BEHAVIOR_EXP_NULL
  | SR_LAST_HOP_BEHAVIOR_NO_PHP
  | SR_LAST_HOP_BEHAVIOR_PHP
deriving DecidableEq, Repr

open sid_status nh_state sr_sid_value_type sr_last_hop_behavior

/-! ## Data structures from isis_sr.h

Pointers are modelled as `Option` of an identifier (`Nat` sysid or node id);
IP addresses, interface indexes and MPLS labels are modelled as `Nat`. -/

/-- The SID attributes carried by a Prefix-SID sub-TLV (`struct isis_prefix_sid`,
declared in isis_tlvs.h, field `sid` of `struct sr_prefix`): SID value, value
type (index into SRGB vs. absolute label), algorithm, and the last-hop
behavior flag (explicit-null / no-PHP / PHP). -/
structure isis_prefix_sid where
  value : Nat
  value_type : sr_sid_value_type
  algorithm : Nat
  last_hop : sr_last_hop_behavior
deriving DecidableEq, Repr

/-- `struct sr_node` (isis_sr.h lines 99-117): system id, router capabilities
(SRGB bounds, algorithms, MSD). The owned SID lists and the back pointers are
kept at the database level in this model. -/
structure sr_node where
  sysid : Nat
  cap_srgb_lower : Nat
  cap_srgb_upper : Nat
  cap_algo : List Nat
  cap_msd : Nat
deriving DecidableEq, Repr

/-- `struct sr_nhlfe` (isis_sr.h lines 124-137): state, nexthop addresses,
interface, next-hop SR node (`srnext`, by sysid), and label pair. -/
structure sr_nhlfe where
  state : nh_state
  nexthop : Nat
  nexthop6 : Nat
  ifindex : Nat
  srnext : Option Nat
  label_in : Nat
  label_out : Nat
deriving DecidableEq, Repr

/-- `struct sr_prefix` (isis_sr.h lines 161-178): the prefix key, SID
attributes, lifecycle status, the NHLFE collection (one per viable next-hop),
and the advertising node (by sysid). The field `prefix` of the C struct is
rendered `pfx`. -/
structure sr_prefix_t where
  pfx : Nat
  sid : isis_prefix_sid
  status : sid_status
  nhlfes : List sr_nhlfe
  srn : Nat
deriving DecidableEq, Repr

/-- `struct sr_adjacency` (isis_sr.h lines 141-158): the /32 or /128 prefix of
the adjacent interface, the allocated Adjacency-SID label, the single NHLFE,
and back references (by identifier). -/
structure sr_adjacency where
  pfx : Nat
  adj_sid_label : Nat
  nhlfe : sr_nhlfe
  srn : Nat
  adj : Nat
deriving DecidableEq, Repr

/-- `struct isis_sr_db` (isis_sr.h lines 183-219): enabled flag, the
in-progress `update` flag, the pending debounce timer (`t_sr_update`, modelled
as the Boolean `pending`), self node, node and prefix collections, local SRGB
bounds, the label-manager reservation flags `srgb_lm` and `adj_lm`, and MSD. -/
structure isis_sr_db where
  enabled : Bool
  update : Bool
  pending : Bool
  flags : Nat
  self : Option Nat
  sr_nodes : List sr_node
  prefix_sids : List sr_prefix_t
  algo : List Nat
  lower_bound : Nat
  upper_bound : Nat
  srgb_lm : Bool
  adj_lm : Bool
  msd : Nat
deriving DecidableEq, Repr

/-- A request issued to the external forwarding-plane sink. -/
inductive fp_call where
  | install (label_in label_out nexthop ifindex : Nat)
  | withdraw (label_in nexthop ifindex : Nat)
deriving DecidableEq, Repr

/-! ## Macros from isis_sr.h -/

/-- `IS_SR(a)` (isis_sr.h line 77): `(a && a->srdb.enabled)`. The pointer `a`
to a `struct isis_area` is `Option isis_sr_db` (the only area field read is
`srdb`); C short-circuit `&&` yields false on NULL. -/
def IS_SR (a : Option isis_sr_db) : Bool :=
  match a with
  | none => false
  | some ar => ar.enabled

/-- A pointer to a `struct sr_node` together with its identity (node id) and
the `area` back pointer it carries, for the macros that compare node pointers. -/
structure sr_node_ptr where
  id : Nat
  area : Option isis_sr_db
deriving Repr

/-- `IS_SR_SELF(s, a)` (isis_sr.h line 121): `(s && a && s == a->srdb.self)`.
Both pointers are NULL-checked before the pointer comparison with
`a->srdb.self` (modelled as comparison of node ids). -/
def IS_SR_SELF (s : Option sr_node_ptr) (a : Option isis_sr_db) : Bool :=
  match s, a with
  | some sn, some ar => decide (some sn.id = ar.self)
  | _, _ => false

/-- `IS_SELF(srn)` (isis_sr.h line 78): `(srn == srn->area->srdb.self)`.
The macro dereferences `srn` and `srn->area` unconditionally; the model
returns `none` (undefined behavior) when either pointer is NULL, and the
comparison result otherwise. -/
def IS_SELF (srn : Option sr_node_ptr) : Option Bool :=
  match srn with
  | none => none
  | some sn =>
    match sn.area with
    | none => none
    | some ar => some (decide (some sn.id = ar.self))

/-! ## NHLFE engine

Modelled from the spec: the bodies declared in isis_sr.h (isis_sr.c) are not
part of the repository snapshot; the NHLFE engine follows spec section 4.4. -/

/-- Modelled from the spec: resolution of a SID to an MPLS label against an
SRGB lower bound — an index-type SID maps to `lower + index`, an
absolute-label SID is the label directly (spec section 4.4, label derivation). -/
def sr_label_resolve (sid : isis_prefix_sid) (lower : Nat) : Nat :=
  match sid.value_type with
  | SR_SID_VALUE_TYPE_INDEX => lower + sid.value
  | SR_SID_VALUE_TYPE_ABSOLUTE => sid.value

/-- One next-hop candidate supplied by the external shortest-path computation:
nexthop address, outgoing interface, and the next-hop's SR node when it is
SR-capable and has advertised this SID (`none` otherwise). -/
structure nexthop_candidate where
  addr : Nat
  addr6 : Nat
  ifx : Nat
  srnext : Option sr_node
deriving DecidableEq, Repr

/-- Modelled from the spec: the NHLFE engine (isis_sr.c is absent; spec
section 4.4). Given the SID, whether the local node is the path's last hop,
the advertising node's SRGB lower bound and the local SRGB lower bound,
build one NHLFE for one candidate. If the local router is the last hop the
output label follows the advertised last-hop behavior (explicit-null; no-PHP
keeps the SID label resolved against the advertising node's SRGB; PHP pops,
rendered as implicit-null). Otherwise the output label is the next-hop
node's own advertised label for that SID (its SRGB resolution); a candidate
whose next-hop node has not advertised the SID is skipped (`none`). The
input label is the SID resolved against the local SRGB. A freshly built
entry is queued for install: state `NEW_NH`. -/
def build_nhlfe (sid : isis_prefix_sid) (is_last_hop : Bool)
    (adv_lower : Nat) (local_lower : Nat) (c : nexthop_candidate) :
    Option sr_nhlfe :=
  if is_last_hop then
    let out :=
      match sid.last_hop with
      | SR_LAST_HOP_BEHAVIOR_EXP_NULL => MPLS_LABEL_IPV4_EXPLICIT_NULL
      | SR_LAST_HOP_BEHAVIOR_NO_PHP => sr_label_resolve sid adv_lower
      | SR_LAST_HOP_BEHAVIOR_PHP => MPLS_LABEL_IMPLICIT_NULL
    some { state := NEW_NH, nexthop := c.addr, nexthop6 := c.addr6,
           ifindex := c.ifx, srnext := c.srnext.map sr_node.sysid,
           label_in := sr_label_resolve sid local_lower, label_out := out }
  else
    match c.srnext with
    | none => none
    | some nh =>
      some { state := NEW_NH, nexthop := c.addr, nexthop6 := c.addr6,
             ifindex := c.ifx, srnext := some nh.sysid,
             label_in := sr_label_resolve sid local_lower,
             label_out := sr_label_resolve sid nh.cap_srgb_lower }

/-- Modelled from the spec: the state an unaffected NHLFE takes during a
reconciliation pass (spec section 4.4): an ACTIVE entry persisting unchanged
becomes UNCHANGED; a just-allocated IDLE entry is queued NEW; the other
states persist. -/
def nh_state_after_pass : nh_state → nh_state
  | ACTIVE_NH => UNCHANGED_NH
  | IDLE_NH => NEW_NH
  | s => s

/-- Whether an existing NHLFE matches a candidate's key (nexthop address and
outgoing interface). -/
def nhlfe_same_key (n : sr_nhlfe) (c : nexthop_candidate) : Bool :=
  n.nexthop == c.addr && n.ifindex == c.ifx

/-- Whether an existing NHLFE carries the same derived attributes as a fresh
build (everything but the state). -/
def nhlfe_same_attrs (a b : sr_nhlfe) : Bool :=
  a.nexthop == b.nexthop && a.nexthop6 == b.nexthop6 &&
  a.ifindex == b.ifindex && a.srnext == b.srnext &&
  a.label_in == b.label_in && a.label_out == b.label_out

/-- Modelled from the spec: reconciliation of one next-hop candidate against
the existing NHLFE collection (spec section 4.3): a candidate the engine
cannot build is skipped; a newly viable next-hop gets a fresh entry (state
NEW); an existing entry with identical attributes is unaffected and takes
`nh_state_after_pass`; an attribute change on an existing entry moves it
back to NEW for re-install. -/
def reconcile_candidate (old : List sr_nhlfe) (sid : isis_prefix_sid)
    (is_last_hop : Bool) (adv_lower : Nat) (local_lower : Nat)
    (c : nexthop_candidate) : Option sr_nhlfe :=
  match build_nhlfe sid is_last_hop adv_lower local_lower c with
  | none => none
  | some fresh =>
    match old.find? (fun n => nhlfe_same_key n c) with
    | none => some fresh
    | some ex =>
      if nhlfe_same_attrs ex fresh then
        some { ex with state := nh_state_after_pass ex.state }
      else
        some fresh

/-- Modelled from the spec: the status an SR prefix takes when `commit`
succeeds (spec section 4.3): MODIFIED/NEW move to UNCHANGED; UNCHANGED stays;
IDLE (never advertised) is left alone. -/
def sid_status_after_commit : sid_status → sid_status
  | NEW_SID => UNCHANGED_SID
  | MODIFIED_SID => UNCHANGED_SID
  | s => s

/-- Modelled from the spec: `isis_sr_prefix_commit` (declared isis_sr.h line
233, body absent; spec section 4.3). The reconciliation point: it diffs the
NHLFE collection attached to the prefix against the now-current SPF-derived
next-hop set, deletes NHLFEs whose next-hop no longer exists (withdraw
issued), adds NHLFEs for newly viable next-hops (state NEW, install issued),
and leaves unaffected NHLFEs per the state rules. Returns the updated prefix
record and the forwarding-plane calls emitted. -/
def isis_sr_prefix_commit (srp : sr_prefix_t) (nhs : List nexthop_candidate)
    (is_last_hop : Bool) (adv_lower : Nat) (local_lower : Nat) :
    sr_prefix_t × List fp_call :=
  let kept := nhs.filterMap
    (reconcile_candidate srp.nhlfes srp.sid is_last_hop adv_lower local_lower)
  let dropped := srp.nhlfes.filter
    (fun n => !(kept.any (fun k => nhlfe_same_attrs k n)))
  let withdraws := dropped.map
    (fun n => fp_call.withdraw n.label_in n.nexthop n.ifindex)
  let installs := (kept.filter (fun n => n.state == NEW_NH)).map
    (fun n => fp_call.install n.label_in n.label_out n.nexthop n.ifindex)
  ({ srp with nhlfes := kept, status := sid_status_after_commit srp.status },
   withdraws ++ installs)

/-! ## Prefix-SID status machine and advertisement processing -/

/-- Modelled from the spec: the status an SR prefix takes when an
advertisement for it is processed (isis_sr.c is absent; spec section 4.3).
`changed` records whether the advertised SID attributes differ from the
stored ones. A prefix still IDLE is being observed for the first time and
moves to NEW; reprocessing with identical attributes moves any observed
state to UNCHANGED; a change moves NEW/UNCHANGED (and keeps MODIFIED) to
MODIFIED. -/
def sid_status_on_ad : sid_status → Bool → sid_status
  | IDLE_SID, _ => NEW_SID
  | _, false => UNCHANGED_SID
  | NEW_SID, true => MODIFIED_SID
  | UNCHANGED_SID, true => MODIFIED_SID
  | MODIFIED_SID, true => MODIFIED_SID

/-- Modelled from the spec: `isis_sr_prefix_add` (declared isis_sr.h line
230, body absent): allocate a new SR prefix record, status IDLE, with an
empty NHLFE collection. -/
def isis_sr_prefix_add (p : Nat) (adv : Nat) : sr_prefix_t :=
  { pfx := p,
    sid := { value := 0, value_type := SR_SID_VALUE_TYPE_INDEX,
             algorithm := 0, last_hop := SR_LAST_HOP_BEHAVIOR_PHP },
    status := IDLE_SID, nhlfes := [], srn := adv }

/-- Modelled from the spec: `isis_sr_prefix_update` (declared isis_sr.h lines
236-237, body absent; spec sections 4.3 and 6). Processing of a Prefix-SID
advertisement: find or add the record for the prefix, record the advertised
attributes and drive the status machine. Advertisement processing touches
no NHLFE and emits no forwarding-plane call (reconciliation happens at
commit). -/
def isis_sr_prefix_update (db : isis_sr_db) (p : Nat)
    (attrs : isis_prefix_sid) (adv : Nat) : isis_sr_db × List fp_call :=
  match db.prefix_sids.find? (fun r => r.pfx == p) with
  | none =>
    let r0 := isis_sr_prefix_add p adv
    ({ db with prefix_sids := db.prefix_sids ++
        [{ r0 with sid := attrs, status := sid_status_on_ad r0.status true }] },
     [])
  | some _ =>
    ({ db with prefix_sids := db.prefix_sids.map (fun r =>
        if r.pfx == p then
          { r with sid := attrs,
                   status := sid_status_on_ad r.status (!(r.sid == attrs)) }
        else r) },
     [])

/-- Modelled from the spec: the state change an NHLFE undergoes when the
outcome of its forwarding-plane install is known (spec section 4.4): a NEW
entry becomes ACTIVE when installed and acknowledged, UNACTIVE when the
install request failed to resolve; other states are not install-pending. -/
def nh_state_install_result (s : nh_state) (ok : Bool) : nh_state :=
  match s with
  | NEW_NH => if ok then ACTIVE_NH else UNACTIVE_NH
  | s => s

/-! ## Update scheduler -/

/-- Modelled from the spec: `isis_sr_update_timer_add` (declared isis_sr.h
line 239, body absent; spec section 4.5). Request a recomputation: the first
request arms the debounce timer (`t_sr_update`, modelled as `pending`);
subsequent requests while it is armed are no-ops (coalescing). -/
def isis_sr_update_timer_add (db : isis_sr_db) : isis_sr_db :=
  if db.pending then db else { db with pending := true }

/-- Modelled from the spec: the debounce timer callback (spec sections 4.5
and 5). If an update is already in progress (the `update` flag of
isis_sr_db) the request is deferred and re-armed rather than run
concurrently; otherwise one full recomputation pass `run_pass` executes
under the `update` guard. Returns the new database and the number of
reconciliation passes run (0 or 1). -/
def sr_update_timer_fire (db : isis_sr_db)
    (run_pass : isis_sr_db → isis_sr_db) : isis_sr_db × Nat :=
  if db.update then
    ({ db with pending := true }, 0)
  else
    let db1 := run_pass { db with pending := false, update := true }
    ({ db1 with update := false }, 1)

/-! ## Label-range manager -/

/-- Modelled from the spec: `isis_sr_srgb_update` (declared isis_sr.h line
227, body absent; spec sections 4.2 and 7b). A reservation request for the
new SRGB is sent to the external label manager, whose outcome is `lm_ok`.
On success the bounds are applied, `srgb_lm` records the reservation and a
full recomputation pass is scheduled (the NHLFE states themselves are only
touched by that later pass). On failure the database is left
disabled-for-labels: `srgb_lm` is false and every ACTIVE NHLFE is withdrawn
from the forwarding plane and deleted, so that no NHLFE remains ACTIVE. -/
def isis_sr_srgb_update (db : isis_sr_db) (lower upper : Nat)
    (lm_ok : Bool) : isis_sr_db × List fp_call :=
  if lm_ok then
    (isis_sr_update_timer_add
      { db with lower_bound := lower, upper_bound := upper, srgb_lm := true },
     [])
  else
    let withdraws := db.prefix_sids.flatMap (fun r =>
      (r.nhlfes.filter (fun n => n.state == ACTIVE_NH)).map
        (fun n => fp_call.withdraw n.label_in n.nexthop n.ifindex))
    ({ db with
       srgb_lm := false,
       prefix_sids := db.prefix_sids.map (fun r =>
         { r with nhlfes := r.nhlfes.filter (fun n => !(n.state == ACTIVE_NH)) }) },
     withdraws)

/-! ## Adjacency-SID manager -/

/-- Modelled from the spec: the local Adjacency-SID label pool, initially
the full range ADJ_SID_MIN..ADJ_SID_MAX (isis_sr.h lines 56-57), kept as
the list of free labels. -/
def adj_sid_pool_init : List Nat :=
  (List.range (ADJ_SID_MAX + 1 - ADJ_SID_MIN)).map (fun i => ADJ_SID_MIN + i)

/-- Modelled from the spec: allocation from the Adjacency-SID pool (spec
section 6, label manager): take a free label, or deny when exhausted. -/
def pool_alloc : List Nat → Option (Nat × List Nat)
  | [] => none
  | l :: rest => some (l, rest)

/-- Modelled from the spec: return a label to the Adjacency-SID pool. -/
def pool_free (p : List Nat) (l : Nat) : List Nat := l :: p

/-- Modelled from the spec: the adjacency-Up handler (spec section 4.6;
isis_sr.c is absent). Allocate a label from the Adjacency-SID pool, build
exactly one NHLFE (output label implicit-null for the directly connected
neighbor) and install it immediately. When the pool is exhausted the call
fails gracefully: no record, no NHLFE, no forwarding-plane call (`none`). -/
def on_adjacency_up (pool : List Nat) (p addr addr6 ifx srn adjid : Nat) :
    Option (sr_adjacency × List Nat × List fp_call) :=
  match pool_alloc pool with
  | none => none
  | some (l, pool1) =>
    let n : sr_nhlfe :=
      { state := NEW_NH, nexthop := addr, nexthop6 := addr6, ifindex := ifx,
        srnext := none, label_in := l, label_out := MPLS_LABEL_IMPLICIT_NULL }
    some ({ pfx := p, adj_sid_label := l, nhlfe := n, srn := srn, adj := adjid },
          pool1,
          [fp_call.install l MPLS_LABEL_IMPLICIT_NULL addr ifx])

/-- Modelled from the spec: the adjacency-Down handler (spec section 4.6;
isis_sr.c is absent). Withdraw the adjacency's NHLFE, release the allocated
label back to the pool and delete the record. The final Boolean argument is
the outcome of the external label-manager free call: the local release
happens regardless of it, so no ghost allocation remains. -/
def on_adjacency_down (pool : List Nat) (adjs : List sr_adjacency)
    (a : sr_adjacency) (_lm_ok : Bool) :
    List Nat × List sr_adjacency × List fp_call :=
  (pool_free pool a.adj_sid_label,
   adjs.filter (fun x => !(x == a)),
   [fp_call.withdraw a.nhlfe.label_in a.nhlfe.nexthop a.nhlfe.ifindex])

/-! ## Theorems -/

/-- C10: `IS_SR(a)` is false on NULL and `a->srdb.enabled` otherwise;
`IS_SR_SELF(s, a)` is false when `s` or `a` is NULL; `IS_SELF(srn)`
dereferences `srn` and `srn->area` unconditionally, so it has a defined
result exactly when both are non-NULL. -/
theorem is_sr_macros_null_safety :
    (IS_SR none = false) ∧
    (∀ ar : isis_sr_db, IS_SR (some ar) = ar.enabled) ∧
    (∀ a : Option isis_sr_db, IS_SR_SELF none a = false) ∧
    (∀ s : Option sr_node_ptr, IS_SR_SELF s none = false) ∧
    (∀ srn : Option sr_node_ptr,
      (IS_SELF srn).isSome ↔ ∃ sn ar, srn = some sn ∧ sn.area = some ar) := by
  refine ⟨rfl, fun ar => rfl, fun a => rfl, fun s => ?_, fun srn => ?_⟩
  · cases s <;> rfl
  · cases srn with
    | none => simp [IS_SELF]
    | some sn =>
      cases h : sn.area with
      | none => simp [IS_SELF, h]
      | some ar => simp [IS_SELF, h]

/-- C10 witness: concrete evaluations of the three macros. -/
theorem is_sr_macros_null_safety_witness :
    IS_SR_SELF (some ⟨4, none⟩) none = false :=
  is_sr_macros_null_safety.2.2.2.1 (some ⟨4, none⟩)

/-- C9: the local Adjacency-SID pool is exactly the label range
[ADJ_SID_MIN, ADJ_SID_MAX] = [5000, 5999], and with the pool fully
exhausted `on_adjacency_up` fails gracefully: no record, no NHLFE and no
forwarding-plane call are produced. -/
theorem adj_sid_pool_bounds_and_exhaustion :
    ADJ_SID_MIN = 5000 ∧ ADJ_SID_MAX = 5999 ∧
    (∀ l : Nat, l ∈ adj_sid_pool_init ↔ ADJ_SID_MIN ≤ l ∧ l ≤ ADJ_SID_MAX) ∧
    (∀ p addr addr6 ifx srn adjid : Nat,
      on_adjacency_up [] p addr addr6 ifx srn adjid = none) := by
  refine ⟨rfl, rfl, fun l => ?_, fun p addr addr6 ifx srn adjid => rfl⟩
  simp only [adj_sid_pool_init, ADJ_SID_MIN, ADJ_SID_MAX, List.mem_map,
    List.mem_range]
  constructor
  · rintro ⟨i, hi, rfl⟩
    omega
  · rintro ⟨h1, h2⟩
    exact ⟨l - 5000, by omega, by omega⟩

/-- C9 witness: 5000 is in the initial pool, 4999 is not, and an Up event
on an empty pool at a concrete adjacency yields nothing. -/
theorem adj_sid_pool_bounds_and_exhaustion_witness :
    (5000 ∈ adj_sid_pool_init ↔ ADJ_SID_MIN ≤ 5000 ∧ 5000 ≤ ADJ_SID_MAX) ∧
    on_adjacency_up [] 1 2 3 4 5 6 = none :=
  ⟨adj_sid_pool_bounds_and_exhaustion.2.2.1 5000,
   adj_sid_pool_bounds_and_exhaustion.2.2.2 1 2 3 4 5 6⟩

/-- C5: a second `request_update` within the debounce window is a no-op
(the two calls coalesce), so two consecutive SPF completions yield exactly
one reconciliation pass when the timer fires; and a timer firing while an
update is in progress defers and re-arms (zero passes) rather than running
concurrently. -/
theorem update_scheduler_debounce (db : isis_sr_db)
    (run_pass : isis_sr_db → isis_sr_db) :
    (isis_sr_update_timer_add (isis_sr_update_timer_add db) =
      isis_sr_update_timer_add db) ∧
    (db.update = false →
      (sr_update_timer_fire
        (isis_sr_update_timer_add (isis_sr_update_timer_add db)) run_pass).2
        = 1) ∧
    (db.update = true →
      sr_update_timer_fire db run_pass = ({ db with pending := true }, 0)) := by
  refine ⟨?_, fun h => ?_, fun h => ?_⟩
  · unfold isis_sr_update_timer_add
    cases hp : db.pending <;> simp [hp]
  · unfold isis_sr_update_timer_add sr_update_timer_fire
    cases hp : db.pending <;> simp [hp, h]
  · unfold sr_update_timer_fire
    simp [h]

/-- C5 witness: from a quiescent database, two requests then one timer
expiry run exactly one pass. -/
theorem update_scheduler_debounce_witness :
    (sr_update_timer_fire
      (isis_sr_update_timer_add (isis_sr_update_timer_add
        { enabled := true, update := false, pending := false, flags := 0,
          self := none, sr_nodes := [], prefix_sids := [], algo := [],
          lower_bound := 16000, upper_bound := 23999, srgb_lm := true,
          adj_lm := true, msd := 10 })) id).2 = 1 :=
  (update_scheduler_debounce
    { enabled := true, update := false, pending := false, flags := 0,
      self := none, sr_nodes := [], prefix_sids := [], algo := [],
      lower_bound := 16000, upper_bound := 23999, srgb_lm := true,
      adj_lm := true, msd := 10 } id).2.1 rfl

/-- C8: adjacency Down withdraws the adjacency's single NHLFE, returns the
allocated label to the Adjacency-SID pool and deletes the record, and its
result does not depend on the outcome of the external label-manager call,
so no stale allocation can remain. -/
theorem adjacency_down_releases (pool : List Nat) (adjs : List sr_adjacency)
    (a : sr_adjacency) (lm_ok : Bool) :
    (on_adjacency_down pool adjs a lm_ok = on_adjacency_down pool adjs a true) ∧
    a.adj_sid_label ∈ (on_adjacency_down pool adjs a lm_ok).1 ∧
    a ∉ (on_adjacency_down pool adjs a lm_ok).2.1 ∧
    fp_call.withdraw a.nhlfe.label_in a.nhlfe.nexthop a.nhlfe.ifindex ∈
      (on_adjacency_down pool adjs a lm_ok).2.2 := by
  refine ⟨rfl, ?_, ?_, ?_⟩
  · simp [on_adjacency_down, pool_free]
  · simp [on_adjacency_down]
  · simp [on_adjacency_down]

/-- C8 witness: a concrete adjacency torn down with a failing label-manager
call still has its label back in the pool. -/
theorem adjacency_down_releases_witness :
    (5000 : Nat) ∈ (on_adjacency_down [] []
      { pfx := 9, adj_sid_label := 5000,
        nhlfe := { state := ACTIVE_NH, nexthop := 1, nexthop6 := 0,
                   ifindex := 2, srnext := none, label_in := 5000,
                   label_out := 3 },
        srn := 7, adj := 11 } false).1 :=
  (adjacency_down_releases [] []
    { pfx := 9, adj_sid_label := 5000,
      nhlfe := { state := ACTIVE_NH, nexthop := 1, nexthop6 := 0,
                 ifindex := 2, srnext := none, label_in := 5000,
                 label_out := 3 },
      srn := 7, adj := 11 } false).2.1


/-- Helper: a map whose function fixes every element of the list is the
identity on that list. -/
theorem map_eq_self_of_fixes {α : Type} (l : List α) (f : α → α)
    (h : ∀ x ∈ l, f x = x) : l.map f = l := by
  induction l with
  | nil => rfl
  | cons a t ih =>
    simp only [List.map_cons, h a (List.mem_cons_self a t)]
    rw [ih (fun x hx => h x (List.mem_cons_of_mem a hx))]

/-- A sample Prefix-SID attribute record: index 100, algorithm 0, no-PHP. -/
def sample_sid : isis_prefix_sid :=
  { value := 100, value_type := SR_SID_VALUE_TYPE_INDEX, algorithm := 0,
    last_hop := SR_LAST_HOP_BEHAVIOR_NO_PHP }

/-- A sample installed NHLFE for `sample_sid` resolved against SRGB base
16000 toward next-hop node 7. -/
def sample_nhlfe : sr_nhlfe :=
  { state := ACTIVE_NH, nexthop := 1, nexthop6 := 0, ifindex := 2,
    srnext := some 7, label_in := 16100, label_out := 16100 }

/-- A sample SR prefix record carrying `sample_sid` with no NHLFE. -/
def sample_srp : sr_prefix_t :=
  { pfx := 1, sid := sample_sid, status := UNCHANGED_SID, nhlfes := [],
    srn := 9 }

/-- A sample per-area SR database holding the given prefix records. -/
def sample_db (ps : List sr_prefix_t) : isis_sr_db :=
  { enabled := true, update := false, pending := false, flags := 0,
    self := none, sr_nodes := [], prefix_sids := ps, algo := [0],
    lower_bound := 16000, upper_bound := 23999, srgb_lm := true,
    adj_lm := true, msd := 10 }

/-- C7: when the SRGB reservation at the external label manager fails, the
database is left disabled-for-labels — `srgb_lm` is false and no NHLFE of
any prefix remains in state ACTIVE (the ACTIVE ones are withdrawn) — while
a successful reservation records `srgb_lm = true`. -/
theorem srgb_update_failure_consistency (db : isis_sr_db) (lower upper : Nat) :
    ((isis_sr_srgb_update db lower upper true).1.srgb_lm = true) ∧
    ((isis_sr_srgb_update db lower upper false).1.srgb_lm = false) ∧
    (∀ r ∈ (isis_sr_srgb_update db lower upper false).1.prefix_sids,
      ∀ n ∈ r.nhlfes, n.state ≠ ACTIVE_NH) := by
  refine ⟨?_, rfl, ?_⟩
  · unfold isis_sr_srgb_update isis_sr_update_timer_add
    simp only [if_true]
    split <;> rfl
  · intro r hr n hn
    unfold isis_sr_srgb_update at hr
    simp only [Bool.false_eq_true, if_false, List.mem_map] at hr
    obtain ⟨r0, hr0, rfl⟩ := hr
    simp only [List.mem_filter] at hn
    have h2 := hn.2
    simp only [Bool.not_eq_true', beq_eq_false_iff_ne, ne_eq] at h2
    exact h2

/-- C7 witness: a database carrying one ACTIVE NHLFE, after a failed
reservation, has no ACTIVE NHLFE left. -/
theorem srgb_update_failure_consistency_witness :
    ∀ r ∈ (isis_sr_srgb_update
        (sample_db [{ sample_srp with nhlfes := [sample_nhlfe] }])
        17000 18999 false).1.prefix_sids,
      ∀ n ∈ r.nhlfes, n.state ≠ ACTIVE_NH :=
  (srgb_update_failure_consistency
    (sample_db [{ sample_srp with nhlfes := [sample_nhlfe] }])
    17000 18999).2.2

/-- C6: replaying an advertisement whose attributes equal the recorded ones,
for a prefix whose status is UNCHANGED, returns the database unchanged —
in particular no NHLFE state changes — and emits no forwarding-plane call. -/
theorem prefix_update_idempotent (db : isis_sr_db) (p : Nat)
    (attrs : isis_prefix_sid) (adv : Nat)
    (hex : ∃ r ∈ db.prefix_sids, r.pfx = p)
    (hall : ∀ r ∈ db.prefix_sids, r.pfx = p →
      r.status = UNCHANGED_SID ∧ r.sid = attrs) :
    isis_sr_prefix_update db p attrs adv = (db, []) := by
  have hsome : (db.prefix_sids.find? (fun r => r.pfx == p)).isSome := by
    rw [List.find?_isSome]
    obtain ⟨r, hr, hp⟩ := hex
    exact ⟨r, hr, by simp [hp]⟩
  cases hfind : db.prefix_sids.find? (fun r => r.pfx == p) with
  | none => rw [hfind] at hsome; simp at hsome
  | some r1 =>
    unfold isis_sr_prefix_update
    rw [hfind]
    have hmap : db.prefix_sids.map (fun r =>
        if r.pfx == p then
          { r with sid := attrs,
                   status := sid_status_on_ad r.status (!(r.sid == attrs)) }
        else r) = db.prefix_sids := by
      apply map_eq_self_of_fixes
      intro r hr
      obtain ⟨rp, rsid, rst, rnh, rsrn⟩ := r
      by_cases hc : rp = p
      · obtain ⟨hst, hsid⟩ := hall ⟨rp, rsid, rst, rnh, rsrn⟩ hr hc
        simp only at hst hsid
        subst hst
        subst hsid
        simp [hc, sid_status_on_ad]
      · simp [hc]
    rw [hmap]

/-- C6 witness: a concrete one-prefix database absorbs a replayed identical
advertisement with no change and no forwarding-plane call. -/
theorem prefix_update_idempotent_witness :
    isis_sr_prefix_update (sample_db [sample_srp]) 1 sample_sid 9 =
      (sample_db [sample_srp], []) :=
  prefix_update_idempotent (sample_db [sample_srp]) 1 sample_sid 9
    ⟨sample_srp, by simp [sample_db], rfl⟩
    (by
      intro r hr hp
      simp only [sample_db, List.mem_singleton] at hr
      subst hr
      exact ⟨rfl, rfl⟩)

/-- C2 counterexample: two engine-built NHLFEs whose SID is index 100 while
the advertising node's SRGB starts at 16000,
yet whose output label is not 16000 + 100: a last-hop PHP entry carries the
implicit-null label 3, and a non-last-hop entry toward a next-hop node whose
own SRGB starts at 20000 carries that node's label 20100. -/
theorem nhlfe_label_derivation_counterexample :
    ((build_nhlfe
        { value := 100, value_type := SR_SID_VALUE_TYPE_INDEX,
          algorithm := 0, last_hop := SR_LAST_HOP_BEHAVIOR_PHP }
        true 16000 16000
        { addr := 1, addr6 := 0, ifx := 2, srnext := none }).map
      sr_nhlfe.label_out = some 3) ∧
    (3 : Nat) ≠ 16000 + 100 ∧
    ((build_nhlfe sample_sid false 16000 16000
        { addr := 1, addr6 := 0, ifx := 2,
          srnext := some { sysid := 7, cap_srgb_lower := 20000,
                           cap_srgb_upper := 27999, cap_algo := [0],
                           cap_msd := 10 } }).map
      sr_nhlfe.label_out = some 20100) ∧
    (20100 : Nat) ≠ 16000 + 100 := by decide

/-- C2 (amended): SID-to-label resolution maps an index-type SID to the SRGB
base plus the index and an absolute-label SID to the label directly; for an
engine-built NHLFE the output label is the resolution of the SID against the
SRGB of the node whose advertised label is used: the next-hop node when the
local router is not the last hop, and the advertising node when it is the
last hop with no-PHP behavior (PHP and explicit-null last-hop behaviors
substitute the corresponding reserved labels instead). -/
theorem nhlfe_label_derivation (sid : isis_prefix_sid) (lower : Nat) :
    (sid.value_type = SR_SID_VALUE_TYPE_INDEX →
      sr_label_resolve sid lower = lower + sid.value) ∧
    (sid.value_type = SR_SID_VALUE_TYPE_ABSOLUTE →
      sr_label_resolve sid lower = sid.value) ∧
    (∀ lh al ll (c : nexthop_candidate) (n : sr_nhlfe),
      build_nhlfe sid lh al ll c = some n →
      (lh = false → ∃ nh, c.srnext = some nh ∧
        n.label_out = sr_label_resolve sid nh.cap_srgb_lower) ∧
      (lh = true → sid.last_hop = SR_LAST_HOP_BEHAVIOR_NO_PHP →
        n.label_out = sr_label_resolve sid al)) := by
  refine ⟨?_, ?_, ?_⟩
  · intro h
    unfold sr_label_resolve
    rw [h]
  · intro h
    unfold sr_label_resolve
    rw [h]
  · intro lh al ll c n hb
    constructor
    · intro hlh
      subst hlh
      unfold build_nhlfe at hb
      simp only [Bool.false_eq_true, if_false] at hb
      cases hc : c.srnext with
      | none => rw [hc] at hb; exact absurd hb (by simp)
      | some nh =>
        rw [hc] at hb
        refine ⟨nh, rfl, ?_⟩
        cases hb
        rfl
    · intro hlh hphp
      subst hlh
      unfold build_nhlfe at hb
      simp only [if_true] at hb
      rw [hphp] at hb
      cases hb
      rfl

/-- C2 witness: index 100 against SRGB [16000, 23999] resolves to label
16100, and a last-hop no-PHP NHLFE built for that SID carries it. -/
theorem nhlfe_label_derivation_witness :
    sr_label_resolve sample_sid 16000 = 16000 + 100 :=
  (nhlfe_label_derivation sample_sid 16000).1 rfl

/-- The transitions of the prefix-SID status machine as the claim states
them (reflexive steps stand for "no transition"): IDLE to NEW at first
observation; NEW or UNCHANGED to MODIFIED on an attribute change; any
state to UNCHANGED (identical re-advertisement, or commit from NEW or
MODIFIED). -/
def sid_status_trans_ok (a b : sid_status) : Bool :=
  a == b ||
  (match a, b with
   | IDLE_SID, NEW_SID => true
   | NEW_SID, MODIFIED_SID => true
   | UNCHANGED_SID, MODIFIED_SID => true
   | _, UNCHANGED_SID => true
   | _, _ => false)

/-- C4: both operations that write a prefix status — advertisement
processing (`sid_status_on_ad`, used by `isis_sr_prefix_update`) and
`sid_status_after_commit` — move it only along the claimed lifecycle:
IDLE to NEW at first observation, NEW/UNCHANGED to MODIFIED on a changed
attribute, any observed state to UNCHANGED on an identical
re-advertisement, and NEW/MODIFIED to UNCHANGED after a successful commit;
and every record present after `isis_sr_prefix_update` either was just
created with status NEW or evolved from a stored record along those
transitions. -/
theorem prefix_status_lifecycle :
    (∀ st ch, sid_status_trans_ok st (sid_status_on_ad st ch) = true) ∧
    (∀ st, sid_status_trans_ok st (sid_status_after_commit st) = true) ∧
    (∀ ch, sid_status_on_ad IDLE_SID ch = NEW_SID) ∧
    (∀ st, st ≠ IDLE_SID → sid_status_on_ad st false = UNCHANGED_SID) ∧
    (sid_status_on_ad NEW_SID true = MODIFIED_SID ∧
      sid_status_on_ad UNCHANGED_SID true = MODIFIED_SID) ∧
    (sid_status_after_commit NEW_SID = UNCHANGED_SID ∧
      sid_status_after_commit MODIFIED_SID = UNCHANGED_SID) ∧
    (∀ db p attrs adv r,
      r ∈ (isis_sr_prefix_update db p attrs adv).1.prefix_sids →
      r.status = NEW_SID ∨
      ∃ r0 ∈ db.prefix_sids, sid_status_trans_ok r0.status r.status = true) := by
  have htrans : ∀ st ch, sid_status_trans_ok st (sid_status_on_ad st ch) = true :=
    fun st ch => by cases st <;> cases ch <;> rfl
  refine ⟨htrans,
    fun st => by cases st <;> rfl,
    fun ch => by cases ch <;> rfl,
    fun st h => by cases st <;> first | rfl | exact absurd rfl h,
    ⟨rfl, rfl⟩, ⟨rfl, rfl⟩, ?_⟩
  intro db p attrs adv r hr
  unfold isis_sr_prefix_update at hr
  cases hfind : db.prefix_sids.find? (fun q => q.pfx == p) with
  | none =>
    rw [hfind] at hr
    simp only [List.mem_append, List.mem_singleton] at hr
    cases hr with
    | inl h =>
      exact Or.inr ⟨r, h, by simp [sid_status_trans_ok]⟩
    | inr h =>
      subst h
      exact Or.inl rfl
  | some r1 =>
    rw [hfind] at hr
    simp only [List.mem_map] at hr
    obtain ⟨r0, hr0, rfl⟩ := hr
    refine Or.inr ⟨r0, hr0, ?_⟩
    by_cases hc : r0.pfx = p
    · simp only [hc, beq_self_eq_true, if_true]
      exact htrans r0.status _
    · simp only [beq_eq_false_iff_ne, hc, if_neg, sid_status_trans_ok]
      simp [sid_status_trans_ok, hc]

/-- C4 witness: a fresh advertisement into an empty database creates the
record with status NEW. -/
theorem prefix_status_lifecycle_witness :
    ({ pfx := 1, sid := sample_sid, status := NEW_SID, nhlfes := [],
       srn := 9 } : sr_prefix_t).status = NEW_SID ∨
    ∃ r0 ∈ (sample_db []).prefix_sids,
      sid_status_trans_ok r0.status
        ({ pfx := 1, sid := sample_sid, status := NEW_SID, nhlfes := [],
           srn := 9 } : sr_prefix_t).status = true :=
  prefix_status_lifecycle.2.2.2.2.2.2 (sample_db []) 1 sample_sid 9
    { pfx := 1, sid := sample_sid, status := NEW_SID, nhlfes := [], srn := 9 }
    (by
      unfold isis_sr_prefix_update
      simp [sample_db, isis_sr_prefix_add, sid_status_on_ad])

/-- Helper: every NHLFE the engine builds starts in state NEW. -/
theorem build_nhlfe_state (sid : isis_prefix_sid) (lh : Bool) (al ll : Nat)
    (c : nexthop_candidate) (n : sr_nhlfe)
    (h : build_nhlfe sid lh al ll c = some n) : n.state = NEW_NH := by
  unfold build_nhlfe at h
  split at h
  · cases h
    rfl
  · cases hc : c.srnext with
    | none => rw [hc] at h; exact absurd h (by simp)
    | some nh =>
      rw [hc] at h
      cases h
      rfl

/-- Helper: reconciliation keeps a candidate exactly when the engine can
build an NHLFE for it. -/
theorem reconcile_candidate_isSome (old : List sr_nhlfe)
    (sid : isis_prefix_sid) (lh : Bool) (al ll : Nat)
    (c : nexthop_candidate) :
    (reconcile_candidate old sid lh al ll c).isSome =
      (build_nhlfe sid lh al ll c).isSome := by
  unfold reconcile_candidate
  cases hb : build_nhlfe sid lh al ll c with
  | none => simp [hb]
  | some fresh =>
    simp only [hb]
    cases hf : old.find? (fun n => nhlfe_same_key n c) with
    | none => simp [hf]
    | some ex =>
      simp only [hf]
      split <;> rfl

/-- Helper: a kept NHLFE is either a fresh build (state NEW) or an existing
entry whose state advanced by `nh_state_after_pass`. -/
theorem reconcile_candidate_cases (old : List sr_nhlfe)
    (sid : isis_prefix_sid) (lh : Bool) (al ll : Nat)
    (c : nexthop_candidate) (n : sr_nhlfe)
    (h : reconcile_candidate old sid lh al ll c = some n) :
    n.state = NEW_NH ∨
    ∃ ex, old.find? (fun m => nhlfe_same_key m c) = some ex ∧
      n = { ex with state := nh_state_after_pass ex.state } := by
  unfold reconcile_candidate at h
  cases hb : build_nhlfe sid lh al ll c with
  | none => rw [hb] at h; exact absurd h (by simp)
  | some fresh =>
    simp only [hb] at h
    cases hf : old.find? (fun m => nhlfe_same_key m c) with
    | none =>
      simp only [hf, Option.some.injEq] at h
      subst h
      exact Or.inl (build_nhlfe_state sid lh al ll c fresh hb)
    | some ex =>
      simp only [hf] at h
      by_cases hat : nhlfe_same_attrs ex fresh = true
      · rw [if_pos hat, Option.some.injEq] at h
        subst h
        exact Or.inr ⟨ex, rfl, rfl⟩
      · rw [if_neg hat, Option.some.injEq] at h
        subst h
        exact Or.inl (build_nhlfe_state sid lh al ll c fresh hb)

/-- Helper: the length of a `filterMap` equals the length of the `filter` by
the predicate that mirrors where the function yields a value. -/
theorem length_filterMap_filter {α β : Type} (f : α → Option β) (g : α → Bool)
    (h : ∀ a, (f a).isSome = g a) (l : List α) :
    (l.filterMap f).length = (l.filter g).length := by
  induction l with
  | nil => rfl
  | cons a t ih =>
    have ha := h a
    cases hfa : f a with
    | none =>
      rw [hfa] at ha
      simp only [Option.isSome_none] at ha
      simp [List.filterMap_cons, List.filter_cons, hfa, ← ha, ih]
    | some b =>
      rw [hfa] at ha
      simp only [Option.isSome_some] at ha
      simp [List.filterMap_cons, List.filter_cons, hfa, ← ha, ih]

/-- The transitions of the NHLFE reconciliation state machine as the claim
states them (a reflexive step stands for "no transition"): IDLE to NEW
(queued for install), NEW to ACTIVE or UNACTIVE (install outcome), ACTIVE
persisting unchanged to UNCHANGED, and an attribute change on an
ACTIVE/UNCHANGED entry back to NEW. -/
def nh_trans_ok (a b : nh_state) : Bool :=
  a == b ||
  (match a, b with
   | IDLE_NH, NEW_NH => true
   | NEW_NH, ACTIVE_NH => true
   | NEW_NH, UNACTIVE_NH => true
   | ACTIVE_NH, UNCHANGED_NH => true
   | ACTIVE_NH, NEW_NH => true
   | UNCHANGED_NH, NEW_NH => true
   | _, _ => false)

/-- C3: an NHLFE state is one of exactly the five declared values, and each
operation of the model moves it only along the reconciliation state machine:
the unaffected-entry rule of a pass and the install-outcome rule respect
`nh_trans_ok`; an entry kept by reconciliation is either freshly queued NEW
or advanced along the machine from the matched existing entry; and the
operations outside the reconciliation pass touch no NHLFE state —
advertisement processing preserves every stored NHLFE collection (new
records carry none), and a successful SRGB update leaves the prefix records
untouched, deferring recomputation to a scheduled pass. -/
theorem nhlfe_state_machine :
    (∀ s : nh_state, s = IDLE_NH ∨ s = NEW_NH ∨ s = ACTIVE_NH ∨
      s = UNACTIVE_NH ∨ s = UNCHANGED_NH) ∧
    (∀ s, nh_trans_ok s (nh_state_after_pass s) = true) ∧
    (∀ s ok, nh_trans_ok s (nh_state_install_result s ok) = true) ∧
    (∀ old sid lh al ll c (n : sr_nhlfe),
      reconcile_candidate old sid lh al ll c = some n →
      n.state = NEW_NH ∨
      ∃ ex, old.find? (fun m => nhlfe_same_key m c) = some ex ∧
        nh_trans_ok ex.state n.state = true) ∧
    (∀ db p attrs adv r,
      r ∈ (isis_sr_prefix_update db p attrs adv).1.prefix_sids →
      r.nhlfes = [] ∨ ∃ r0 ∈ db.prefix_sids, r.nhlfes = r0.nhlfes) ∧
    (∀ db lower upper,
      (isis_sr_srgb_update db lower upper true).1.prefix_sids =
        db.prefix_sids) := by
  refine ⟨?_, ?_, ?_, ?_, ?_, ?_⟩
  · intro s
    cases s
    · exact Or.inl rfl
    · exact Or.inr (Or.inl rfl)
    · exact Or.inr (Or.inr (Or.inl rfl))
    · exact Or.inr (Or.inr (Or.inr (Or.inl rfl)))
    · exact Or.inr (Or.inr (Or.inr (Or.inr rfl)))
  · intro s
    cases s <;> rfl
  · intro s ok
    cases s <;> cases ok <;> rfl
  · intro old sid lh al ll c n h
    rcases reconcile_candidate_cases old sid lh al ll c n h with hn | ⟨ex, hf, rfl⟩
    · exact Or.inl hn
    · refine Or.inr ⟨ex, hf, ?_⟩
      show nh_trans_ok ex.state (nh_state_after_pass ex.state) = true
      cases ex.state <;> rfl
  · intro db p attrs adv r hr
    unfold isis_sr_prefix_update at hr
    cases hfind : db.prefix_sids.find? (fun q => q.pfx == p) with
    | none =>
      rw [hfind] at hr
      simp only [List.mem_append, List.mem_singleton] at hr
      cases hr with
      | inl h => exact Or.inr ⟨r, h, rfl⟩
      | inr h => subst h; exact Or.inl rfl
    | some r1 =>
      rw [hfind] at hr
      simp only [List.mem_map] at hr
      obtain ⟨r0, hr0, rfl⟩ := hr
      refine Or.inr ⟨r0, hr0, ?_⟩
      by_cases hc : r0.pfx = p <;> simp [hc]
  · intro db lower upper
    unfold isis_sr_srgb_update isis_sr_update_timer_add
    simp only [if_true]
    split <;> rfl

/-- C3 witness: reconciling a persisting, unaffected candidate against a
collection holding one ACTIVE entry keeps the entry and advances it along
the machine from the matched entry. -/
theorem nhlfe_state_machine_witness :
    ({ sample_nhlfe with state := UNCHANGED_NH } : sr_nhlfe).state = NEW_NH ∨
    ∃ ex, ([sample_nhlfe].find? (fun m => nhlfe_same_key m
        { addr := 1, addr6 := 0, ifx := 2,
          srnext := some { sysid := 7, cap_srgb_lower := 16000,
                           cap_srgb_upper := 23999, cap_algo := [0],
                           cap_msd := 10 } })) = some ex ∧
      nh_trans_ok ex.state
        ({ sample_nhlfe with state := UNCHANGED_NH } : sr_nhlfe).state = true :=
  nhlfe_state_machine.2.2.2.1 [sample_nhlfe] sample_sid false 16000 16000
    { addr := 1, addr6 := 0, ifx := 2,
      srnext := some { sysid := 7, cap_srgb_lower := 16000,
                       cap_srgb_upper := 23999, cap_algo := [0],
                       cap_msd := 10 } }
    { sample_nhlfe with state := UNCHANGED_NH }
    (by decide)

/-- C1 counterexample: a prefix with one viable next-hop whose single NHLFE
is already ACTIVE and unaffected: `isis_sr_prefix_commit` leaves exactly one
NHLFE, but its state is UNCHANGED — neither NEW nor ACTIVE — refuting
"each in state NEW or ACTIVE". -/
theorem prefix_commit_counterexample :
    ((isis_sr_prefix_commit
        { pfx := 1,
          sid := { value := 100, value_type := SR_SID_VALUE_TYPE_INDEX,
                   algorithm := 0,
                   last_hop := SR_LAST_HOP_BEHAVIOR_NO_PHP },
          status := UNCHANGED_SID,
          nhlfes := [{ state := ACTIVE_NH, nexthop := 1, nexthop6 := 0,
                       ifindex := 2, srnext := some 7, label_in := 16100,
                       label_out := 16100 }],
          srn := 9 }
        [{ addr := 1, addr6 := 0, ifx := 2,
           srnext := some { sysid := 7, cap_srgb_lower := 16000,
                            cap_srgb_upper := 23999, cap_algo := [0],
                            cap_msd := 10 } }]
        false 16000 16000).1.nhlfes.map sr_nhlfe.state = [UNCHANGED_NH]) ∧
    UNCHANGED_NH ≠ NEW_NH ∧ UNCHANGED_NH ≠ ACTIVE_NH := by decide

/-- C1 (amended): for a prefix none of whose stored NHLFEs was left
UNACTIVE, `isis_sr_prefix_commit` against the SPF-derived candidate set
leaves exactly one NHLFE per viable candidate (one the engine can build),
each in state NEW or UNCHANGED — newly viable next-hops get NEW entries,
unaffected ones become or stay UNCHANGED — never more; the SID metadata is
retained, and with zero next-hop candidates the NHLFE collection is empty. -/
theorem prefix_commit_reconciles (srp : sr_prefix_t)
    (nhs : List nexthop_candidate) (lh : Bool) (al ll : Nat)
    (hno : ∀ n ∈ srp.nhlfes, n.state ≠ UNACTIVE_NH) :
    ((isis_sr_prefix_commit srp nhs lh al ll).1.nhlfes.length =
      (nhs.filter (fun c => (build_nhlfe srp.sid lh al ll c).isSome)).length) ∧
    (∀ n ∈ (isis_sr_prefix_commit srp nhs lh al ll).1.nhlfes,
      n.state = NEW_NH ∨ n.state = UNCHANGED_NH) ∧
    ((isis_sr_prefix_commit srp nhs lh al ll).1.sid = srp.sid) ∧
    (nhs = [] → (isis_sr_prefix_commit srp nhs lh al ll).1.nhlfes = []) := by
  refine ⟨?_, ?_, rfl, ?_⟩
  · exact length_filterMap_filter _ _
      (fun c => reconcile_candidate_isSome srp.nhlfes srp.sid lh al ll c) nhs
  · intro n hn
    simp only [isis_sr_prefix_commit, List.mem_filterMap] at hn
    obtain ⟨c, hc, hrec⟩ := hn
    rcases reconcile_candidate_cases srp.nhlfes srp.sid lh al ll c n hrec
      with hnew | ⟨ex, hf, rfl⟩
    · exact Or.inl hnew
    · have hex : ex ∈ srp.nhlfes := List.mem_of_find?_eq_some hf
      have hexs := hno ex hex
      show nh_state_after_pass ex.state = NEW_NH ∨
        nh_state_after_pass ex.state = UNCHANGED_NH
      cases hst : ex.state with
      | IDLE_NH => exact Or.inl rfl
      | NEW_NH => exact Or.inl rfl
      | ACTIVE_NH => exact Or.inr rfl
      | UNACTIVE_NH => exact absurd hst hexs
      | UNCHANGED_NH => exact Or.inr rfl
  · intro h
    subst h
    rfl

/-- C1 witness: committing `sample_srp` (no stored NHLFE) against one viable
candidate yields exactly one NHLFE. -/
theorem prefix_commit_reconciles_witness :
    (isis_sr_prefix_commit sample_srp
      [{ addr := 1, addr6 := 0, ifx := 2,
         srnext := some { sysid := 7, cap_srgb_lower := 16000,
                          cap_srgb_upper := 23999, cap_algo := [0],
                          cap_msd := 10 } }]
      false 16000 16000).1.nhlfes.length =
    (([{ addr := 1, addr6 := 0, ifx := 2,
         srnext := some { sysid := 7, cap_srgb_lower := 16000,
                          cap_srgb_upper := 23999, cap_algo := [0],
                          cap_msd := 10 } }] : List nexthop_candidate).filter
      (fun c => (build_nhlfe sample_srp.sid false 16000 16000 c).isSome)).length :=
  (prefix_commit_reconciles sample_srp
    [{ addr := 1, addr6 := 0, ifx := 2,
       srnext := some { sysid := 7, cap_srgb_lower := 16000,
                        cap_srgb_upper := 23999, cap_algo := [0],
                        cap_msd := 10 } }]
    false 16000 16000 (by simp [sample_srp])).1

end IsisSr
